import Mathlib

/-!
# Verification of the Reddit Archiver orchestrator specification

This file embeds the frontend dashboard logic (`public/js/app.js`) of the
Reddit Archiver repository, together with models of the backend components
described by the design document (the Python backend is not part of the
inspected sources, so those components are modelled from the spec's words),
and proves or refutes the specification claims about them.
-/

/-! ## A small model of JavaScript values and objects

The dashboard receives Socket.IO payloads as JSON objects.  We model a JS
value as `JSVal` (no floats appear in the payload logic we embed; byte
counts are integers) and an object as an association list from field names
to values; a missing field reads as `undefined`, as in JavaScript. -/

inductive JSVal where
  | undef : JSVal
  | null : JSVal
  | bool : Bool → JSVal
  | num : Int → JSVal
  | str : String → JSVal
  deriving DecidableEq, Repr

abbrev JsObj := List (String × JSVal)

/-- Field access `data.k`: first binding wins, absent fields are `undefined`. -/
def jsGet (data : JsObj) (k : String) : JSVal :=
  match data with
  | [] => .undef
  | (k', v) :: rest => if k' = k then v else jsGet rest k

/-- JavaScript truthiness of a `JSVal` (`undefined`, `null`, `false`, `0`
and `""` are falsy). -/
def truthy : JSVal → Bool
  | .undef => false
  | .null => false
  | .bool b => b
  | .num n => n != 0
  | .str s => s != ""

/-- JavaScript `a || b`. -/
def jsOr (a b : JSVal) : JSVal :=
  if truthy a then a else b

/-- `parseInt(x, 10) || 0` as applied to payload byte counts: numbers pass
through, anything non-numeric (including `undefined`) collapses to `0`. -/
def jsToInt : JSVal → Int
  | .num n => n
  | _ => 0

/-! ## Frontend event handlers (from `public/js/app.js`)

Each Socket.IO handler filters on `data.task_id === currentJobId` and then
renders the payload.  We embed each handler as a function from the current
job id and the payload to an `Option` of the rendered view: `none` means the
handler dropped the event. -/

/-- `socket.on('log_update', ...)`: when `data.task_id === currentJobId`,
calls `addLogMessage(data.timestamp, data.log)`.  Returns the
(timestamp, log text) pair handed to the log renderer. -/
def onLogUpdate (currentJobId : JSVal) (data : JsObj) : Option (JSVal × JSVal) :=
  if jsGet data "task_id" == currentJobId then
    some (jsGet data "timestamp", jsGet data "log")
  else
    none

/-- The view `updateJobStatus` renders: status text (`data.status ||
'Unknown'`), and the processed/total counters (`data.processed_users || 0`,
`data.total_users || 0`). -/
structure JobView where
  statusText : JSVal
  processed : JSVal
  total : JSVal
  deriving DecidableEq, Repr

/-- `updateJobStatus(data)` from `app.js` (field extraction part). -/
def updateJobStatus (data : JsObj) : JobView :=
  { statusText := jsOr (jsGet data "status") (.str "Unknown")
    processed := jsOr (jsGet data "processed_users") (.num 0)
    total := jsOr (jsGet data "total_users") (.num 0) }

/-- `socket.on('job_update', ...)`: calls `updateJobStatus(data)` only when
`data.task_id === currentJobId`. -/
def onJobUpdate (currentJobId : JSVal) (data : JsObj) : Option JobView :=
  if jsGet data "task_id" == currentJobId then
    some (updateJobStatus data)
  else
    none

/-- The view `updateDownloadProgress` renders for one download card. -/
structure DownloadView where
  currentBytes : Int
  totalBytes : Int
  percentage : Int
  filename : JSVal
  errorText : JSVal
  deriving DecidableEq, Repr

/-- `updateDownloadProgress(data)` from `app.js`.  `rand` stands for the
value of `Math.random()` used in the indeterminate-progress branch.
Percentage logic: 100 when completed; `min(100, floor(cur/total*100))` when
the total is known; `min(99, floor(rand*30)+10)` for an unknown-size
in-progress download; 0 otherwise. -/
def updateDownloadProgress (data : JsObj) (rand : ℚ) : DownloadView :=
  let currentBytes := jsToInt (jsGet data "current_bytes")
  let totalBytes := jsToInt (jsGet data "total_bytes")
  let percentage : Int :=
    if jsGet data "status" == .str "completed" then 100
    else if totalBytes > 0 then
      min 100 ⌊(currentBytes : ℚ) / (totalBytes : ℚ) * 100⌋
    else if jsGet data "status" == .str "progress" then
      min 99 (⌊rand * 30⌋ + 10)
    else 0
  { currentBytes := currentBytes
    totalBytes := totalBytes
    percentage := percentage
    filename := jsGet data "filename"
    errorText := jsOr (jsGet data "error") (.str "Unknown error") }

/-- `socket.on('download_progress', ...)`: drops the event when
`data.download_id` is falsy, otherwise renders it when
`data.task_id === currentJobId`. -/
def onDownloadProgress (currentJobId : JSVal) (data : JsObj) (rand : ℚ) :
    Option DownloadView :=
  if ¬ truthy (jsGet data "download_id") then none
  else if jsGet data "task_id" == currentJobId then
    some (updateDownloadProgress data rand)
  else
    none

/-- The view `updateDuplicateProgress` renders for one dedup card. -/
structure DupView where
  username : JSVal
  percentage : JSVal
  found : JSVal
  removed : JSVal
  errorText : JSVal
  deriving DecidableEq, Repr

/-- `updateDuplicateProgress(data)` from `app.js` (field extraction part):
percentage is `data.percentage || 0`, forced to 100 on completion. -/
def updateDuplicateProgress (data : JsObj) : DupView :=
  { username := jsGet data "username"
    percentage :=
      if jsGet data "status" == .str "completed" then .num 100
      else jsOr (jsGet data "percentage") (.num 0)
    found := jsGet data "duplicates_found"
    removed := jsGet data "duplicates_removed"
    errorText := jsOr (jsGet data "error") (.str "Unknown error") }

/-- `socket.on('duplicate_removal_progress', ...)`: renders only when
`data.task_id === currentJobId`. -/
def onDuplicateRemovalProgress (currentJobId : JSVal) (data : JsObj) :
    Option DupView :=
  if jsGet data "task_id" == currentJobId then
    some (updateDuplicateProgress data)
  else
    none

/-- The log-update handler as the spec's §6 payload shape
`log_update{job_id, timestamp, message}` would have it read the payload:
the job-identifying field named `job_id` and the log text field named
`message`.  Written from the spec's words, to be compared with
`onLogUpdate`, which is embedded from the source. -/
def onLogUpdateSpecShape (currentJobId : JSVal) (data : JsObj) :
    Option (JSVal × JSVal) :=
  if jsGet data "job_id" == currentJobId then
    some (jsGet data "timestamp", jsGet data "message")
  else
    none

/-! ## Duplicate Detector/Remover (spec §4.3)

The Python backend implementing the sweep is not among the inspected
sources; the model below follows the design document. -/

/-- A file in a user's archive folder: its name and its content
fingerprint.  Modelled from the spec: "group files by content fingerprint
(e.g., a cryptographic digest of file bytes)"; the fingerprint is abstract
here, equal fingerprints meaning duplicate content. -/
structure FileEntry where
  name : String
  fp : Nat
  deriving DecidableEq, Repr

/-- Modelled from the spec: "Within each group of size > 1, keep exactly
one file (deterministic tie-break: earliest filename lexicographically)
and delete the rest."  A file is kept iff no file of the same fingerprint
in the folder has a lexicographically earlier name. -/
def keepFile (folder : List FileEntry) (f : FileEntry) : Bool :=
  folder.all fun g => !(g.fp == f.fp && decide (g.name < f.name))

/-- The surviving files of one duplicate sweep over `folder`. -/
def sweepSurvivors (folder : List FileEntry) : List FileEntry :=
  folder.filter (keepFile folder)

/-- The `duplicates_removed` count a sweep reports on completion. -/
def duplicatesRemoved (folder : List FileEntry) : Nat :=
  (folder.filter fun f => !(keepFile folder f)).length

/-! ## Job State Machine (spec §4.1)

The backend orchestrator is likewise not among the inspected sources;
the state machine below is modelled from the spec. -/

inductive JobStatus where
  | queued | running | stopping | completed | failed | canceled
  deriving DecidableEq, Repr

/-- The terminal statuses of a Job. -/
def JobStatus.isTerminal : JobStatus → Bool
  | .completed => true
  | .failed => true
  | .canceled => true
  | _ => false

/-- Modelled from the spec: a Job's mutable fields (§3). -/
structure Job where
  status : JobStatus
  total_users : Nat
  processed_users : Nat
  cancel_requested : Bool
  deriving DecidableEq, Repr

/-- A freshly created Job over `n` resolved usernames: queued, nothing
processed, no cancellation requested. -/
def initJob (n : Nat) : Job :=
  { status := .queued, total_users := n, processed_users := 0, cancel_requested := false }

/-- Modelled from the spec: the Job State Machine's transitions (§4.1).
`start` moves `queued → running`; `userDone` bumps `processed_users` once
per username whose downloads and sweep both finished; `stopReq` records a
stop request (`running → stopping`, `cancel_requested` set, never unset);
the `finish*` steps apply the completion policy when the last pipeline
drains: `canceled` when cancellation took effect before all users were
processed, otherwise `completed` or `failed` once every user finished. -/
inductive JobStep : Job → Job → Prop
  | start (j : Job) (h : j.status = .queued) :
      JobStep j { j with status := .running }
  | userDone (j : Job) (h : j.status = .running ∨ j.status = .stopping)
      (hlt : j.processed_users < j.total_users) :
      JobStep j { j with processed_users := j.processed_users + 1 }
  | stopReq (j : Job) (h : j.status = .running) :
      JobStep j { j with status := .stopping, cancel_requested := true }
  | finishCompleted (j : Job) (h : j.status = .running ∨ j.status = .stopping)
      (hall : j.processed_users = j.total_users) :
      JobStep j { j with status := .completed }
  | finishFailed (j : Job) (h : j.status = .running ∨ j.status = .stopping)
      (hall : j.processed_users = j.total_users) :
      JobStep j { j with status := .failed }
  | finishCanceled (j : Job) (h : j.status = .running ∨ j.status = .stopping)
      (hc : j.cancel_requested = true) (hlt : j.processed_users < j.total_users) :
      JobStep j { j with status := .canceled }

/-- A Job state reachable from a freshly created Job over `n` users. -/
def JobReachable (n : Nat) (j : Job) : Prop :=
  Relation.ReflTransGen JobStep (initJob n) j

/-- Errors of the registry operations (§7 taxonomy, the part `stop` uses). -/
inductive OpError where
  | NotFound | InvalidState
  deriving DecidableEq, Repr

/-- Modelled from the spec: `stop(job_id)` (§4.1), applied to the registry's
lookup result for `job_id`.  No Job under the id fails with `NotFound`; a
running Job gets `cancel_requested` set and moves to `stopping`; any other
status (in particular an already-terminal Job) is an `InvalidState` no-op
that leaves the Job unchanged. -/
def stopJob : Option Job → Except OpError Job
  | none => .error .NotFound
  | some j =>
      if j.status = .running then
        .ok { j with status := .stopping, cancel_requested := true }
      else
        .error .InvalidState

/-! ## Download lifecycle (spec §3 and §4.2), modelled from the spec. -/

/-- The events the worker pool emits for one download. -/
inductive DlEvent where
  | started : DlEvent
  | progress (current total : Nat) : DlEvent
  | completed (bytes : Nat) : DlEvent
  | failed (error : String) : DlEvent
  deriving DecidableEq, Repr

/-- `completed` and `failed` are the terminal events of a download. -/
def DlEvent.isTerminal : DlEvent → Bool
  | .completed _ => true
  | .failed _ => true
  | _ => false

def DlEvent.isProgress : DlEvent → Bool
  | .progress _ _ => true
  | _ => false

/-- The lifecycle state of one download. -/
inductive DlState where
  | idle
  | active (bytes : Nat)
  | done
  deriving DecidableEq, Repr

/-- Modelled from the spec: the per-download status transitions
`started → progress → (completed | failed)` (§3), each transition emitting
the corresponding event; `completed`/`failed` are terminal. -/
inductive DlStep : DlState → DlEvent → DlState → Prop
  | start : DlStep .idle .started (.active 0)
  | progress (b b' t : Nat) (h : b ≤ b') :
      DlStep (.active b) (.progress b' t) (.active b')
  | complete (b : Nat) : DlStep (.active b) (.completed b) .done
  | fail (b : Nat) (e : String) : DlStep (.active b) (.failed e) .done

/-- The event sequences one download can emit: `DlTrace s tr s'` holds when
the download moves from `s` to `s'` emitting exactly `tr`. -/
inductive DlTrace : DlState → List DlEvent → DlState → Prop
  | nil (s : DlState) : DlTrace s [] s
  | snoc {s s' s'' : DlState} {tr : List DlEvent} {e : DlEvent} :
      DlTrace s tr s' → DlStep s' e s'' → DlTrace s (tr ++ [e]) s''

/-- The shape the emitted event list of a download can have, by lifecycle
state: nothing before `started`; `started` followed by progress events
while active; `started`, progress events and exactly one trailing terminal
event once done. -/
def traceShape : DlState → List DlEvent → Prop
  | .idle, tr => tr = []
  | .active _, tr =>
      ∃ mid, tr = DlEvent.started :: mid ∧ ∀ e ∈ mid, e.isProgress = true
  | .done, tr =>
      ∃ mid t, tr = DlEvent.started :: (mid ++ [t])
        ∧ (∀ e ∈ mid, e.isProgress = true) ∧ t.isTerminal = true

/-! ## Job creation (spec §4.1), modelled from the spec. -/

inductive InputMode where
  | single | file | folders
  deriving DecidableEq, Repr

inductive CreateError where
  | InvalidInput
  deriving DecidableEq, Repr

/-- Modelled from the spec: `create(input_mode, usernames-or-source, limit,
concurrency) → Job` (§4.1), taking the username list already resolved from
the source (resolution is an external collaborator detail).  Fails with
`InvalidInput` when the resolved list is empty, `concurrency < 1` or
`limit < 0`; rejection happens here, before any pipeline work, and on valid
parameters a fresh queued Job is returned. -/
def createJob (_mode : InputMode) (usernames : List String)
    (limit : Int) (concurrency : Int) : Except CreateError Job :=
  if usernames = [] ∨ concurrency < 1 ∨ limit < 0 then
    .error .InvalidInput
  else
    .ok (initJob usernames.length)

/-! ## Claims -/

/-- C1: refuted as stated.  The spec's §6 names the job-identifying field
`job_id` and the log text field `message`, but the dashboard — the observer
the events are delivered to — reads `data.task_id` in all four handlers and
`data.log` for the log text.  A `log_update` payload shaped as the claim
says (fields `job_id`/`message`) is dropped by the real handler even though
its job id matches the current job, while the spec-shaped reader would
render it; a payload carrying `task_id`/`log` is the one that renders. -/
theorem C1_counterexample :
    onLogUpdate (.str "job-1")
      [("job_id", .str "job-1"), ("timestamp", .str "T1"), ("message", .str "hello")]
      = none
    ∧ onLogUpdateSpecShape (.str "job-1")
      [("job_id", .str "job-1"), ("timestamp", .str "T1"), ("message", .str "hello")]
      = some (.str "T1", .str "hello")
    ∧ onLogUpdate (.str "job-1")
      [("task_id", .str "job-1"), ("timestamp", .str "T1"), ("log", .str "hello")]
      = some (.str "T1", .str "hello") := by
  refine ⟨rfl, rfl, rfl⟩

/-- C1 (amended): every event's job-identifying field is named `task_id`
and the log text field is named `log`; with those renamings the §6 shapes
are what the observer consumes.  Formally: each handler drops any payload
whose `task_id` does not match the current job id, and each handler's
rendering is fully determined by the (amended) §6 field set of its event
type — `log_update` by {task_id, timestamp, log}, `job_update` by
{task_id, status, processed_users, total_users}, `download_progress` by
{task_id, download_id, filename, status, current_bytes, total_bytes,
error}, `duplicate_removal_progress` by {task_id, username, status,
duplicates_found, duplicates_removed, error} plus the optional
`percentage`. -/
theorem C1_amended_payload_shape (jid : JSVal) (d₁ d₂ : JsObj) (rand : ℚ)
    (hmiss : (jsGet d₁ "task_id" == jid) = false) :
    (onLogUpdate jid d₁ = none ∧ onJobUpdate jid d₁ = none
      ∧ onDownloadProgress jid d₁ rand = none
      ∧ onDuplicateRemovalProgress jid d₁ = none)
    ∧ ((∀ k ∈ ["task_id", "timestamp", "log"], jsGet d₁ k = jsGet d₂ k) →
        onLogUpdate jid d₁ = onLogUpdate jid d₂)
    ∧ ((∀ k ∈ ["task_id", "status", "processed_users", "total_users"],
          jsGet d₁ k = jsGet d₂ k) →
        onJobUpdate jid d₁ = onJobUpdate jid d₂)
    ∧ ((∀ k ∈ ["task_id", "download_id", "filename", "status",
          "current_bytes", "total_bytes", "error"], jsGet d₁ k = jsGet d₂ k) →
        onDownloadProgress jid d₁ rand = onDownloadProgress jid d₂ rand)
    ∧ ((∀ k ∈ ["task_id", "username", "status", "duplicates_found",
          "duplicates_removed", "error", "percentage"], jsGet d₁ k = jsGet d₂ k) →
        onDuplicateRemovalProgress jid d₁ = onDuplicateRemovalProgress jid d₂) := by
  refine ⟨?_, ?_, ?_, ?_, ?_⟩
  · exact ⟨by simp [onLogUpdate, hmiss], by simp [onJobUpdate, hmiss],
      by simp [onDownloadProgress, hmiss], by simp [onDuplicateRemovalProgress, hmiss]⟩
  · intro h
    simp only [List.mem_cons, List.not_mem_nil, or_false, forall_eq_or_imp,
      forall_eq] at h
    simp only [onLogUpdate, h.1, h.2.1, h.2.2]
  · intro h
    simp only [List.mem_cons, List.not_mem_nil, or_false, forall_eq_or_imp,
      forall_eq] at h
    simp only [onJobUpdate, updateJobStatus, h.1, h.2.1, h.2.2.1, h.2.2.2]
  · intro h
    simp only [List.mem_cons, List.not_mem_nil, or_false, forall_eq_or_imp,
      forall_eq] at h
    obtain ⟨h1, h2, h3, h4, h5, h6, h7⟩ := h
    simp only [onDownloadProgress, updateDownloadProgress, h1, h2, h3, h4,
      h5, h6, h7]
  · intro h
    simp only [List.mem_cons, List.not_mem_nil, or_false, forall_eq_or_imp,
      forall_eq] at h
    obtain ⟨h1, h2, h3, h4, h5, h6, h7⟩ := h
    simp only [onDuplicateRemovalProgress, updateDuplicateProgress, h1, h2,
      h3, h4, h5, h6, h7]

/-- Witness for the amended C1 theorem at a concrete mismatching payload. -/
theorem C1_amended_payload_shape_witness :
    onLogUpdate (.str "job-1") [("task_id", .str "other")] = none := by
  exact (C1_amended_payload_shape (.str "job-1") [("task_id", .str "other")]
    [] 0 (by decide)).1.1

/-- C8: confirmed.  For an in-progress (`status = 'progress'`)
`download_progress` event whose `total_bytes` is absent or `0`, the
dashboard's rendered progress percentage is strictly positive (in fact at
least 10) and strictly below 100, i.e. a non-zero indeterminate value
rather than a stalled 0%.  `rand` is the `Math.random()` draw, so
`0 ≤ rand < 1`. -/
theorem C8_unknown_size_progress (data : JsObj) (rand : ℚ)
    (hstatus : jsGet data "status" = .str "progress")
    (htotal : jsGet data "total_bytes" = .undef ∨ jsGet data "total_bytes" = .num 0)
    (h0 : 0 ≤ rand) (h1 : rand < 1) :
    0 < (updateDownloadProgress data rand).percentage
    ∧ (updateDownloadProgress data rand).percentage < 100 := by
  have htb : jsToInt (jsGet data "total_bytes") = 0 := by
    rcases htotal with h | h <;> simp [h, jsToInt]
  have hfl0 : (0 : ℤ) ≤ ⌊rand * 30⌋ := Int.floor_nonneg.mpr (by positivity)
  have hfl1 : ⌊rand * 30⌋ ≤ 29 := by
    have h30 : rand * 30 < 30 := by nlinarith
    have hlt : ⌊rand * 30⌋ < (30 : ℤ) := Int.floor_lt.mpr (by exact_mod_cast h30)
    omega
  have hc1 : (jsGet data "status" == JSVal.str "completed") = false := by
    rw [hstatus]; decide
  have hc2 : (jsGet data "status" == JSVal.str "progress") = true := by
    rw [hstatus]; decide
  constructor
  · simp [updateDownloadProgress, htb, hc1, hc2]
    omega
  · simp [updateDownloadProgress, htb, hc1, hc2]

/-- Witness for `C8_unknown_size_progress` at a concrete payload. -/
theorem C8_unknown_size_progress_witness :
    0 < (updateDownloadProgress
          [("status", .str "progress"), ("total_bytes", .num 0),
           ("current_bytes", .num 4096), ("download_id", .str "d1")]
          (1/2)).percentage
    ∧ (updateDownloadProgress
          [("status", .str "progress"), ("total_bytes", .num 0),
           ("current_bytes", .num 4096), ("download_id", .str "d1")]
          (1/2)).percentage < 100 := by
  exact C8_unknown_size_progress _ _ (by rfl) (Or.inr (by rfl))
    (by norm_num) (by norm_num)

/-- C6: confirmed against the spec-modelled `createJob` (the backend is not
among the inspected sources).  Creation fails with `InvalidInput` exactly
when the resolved username list is empty, or `concurrency < 1`, or
`limit < 0`; on valid parameters it returns a fresh queued Job (invalid
parameters are rejected at creation and never reach the pipeline). -/
theorem C6_create_validation (mode : InputMode) (us : List String)
    (limit concurrency : Int) :
    (createJob mode us limit concurrency = .error .InvalidInput
      ↔ (us = [] ∨ concurrency < 1 ∨ limit < 0))
    ∧ (¬(us = [] ∨ concurrency < 1 ∨ limit < 0) →
        createJob mode us limit concurrency = .ok (initJob us.length)
        ∧ (initJob us.length).status = .queued) := by
  constructor
  · unfold createJob
    split <;> simp_all
  · intro h
    unfold createJob
    simp [h, initJob]

/-- Witness for `C6_create_validation`: a valid call returns a queued Job,
an empty username list is rejected with `InvalidInput`. -/
theorem C6_create_validation_witness :
    createJob .single ["alice"] 10 2 = .ok (initJob 1)
    ∧ createJob .single [] 10 2 = .error .InvalidInput := by
  refine ⟨((C6_create_validation .single ["alice"] 10 2).2 (by norm_num)).1, ?_⟩
  exact (C6_create_validation .single [] 10 2).1.mpr (Or.inl rfl)

/-- Surviving a sweep over a folder keeps a file surviving over any subset:
`keepFile` only universally quantifies over the folder's files. -/
theorem keepFile_of_sublist {l l' : List FileEntry} {f : FileEntry}
    (hsub : ∀ g ∈ l', g ∈ l) (h : keepFile l f = true) :
    keepFile l' f = true := by
  unfold keepFile at *
  rw [List.all_eq_true] at *
  intro g hg
  exact h g (hsub g hg)

/-- C2: confirmed against the spec-modelled sweep (the backend is not among
the inspected sources).  Every content fingerprint present in a folder
before the duplicate sweep is still present among the sweep's survivors:
the sweep never deletes the last remaining copy of any fingerprint group. -/
theorem C2_sweep_preserves_fingerprints (folder : List FileEntry)
    (f : FileEntry) (hf : f ∈ folder) :
    ∃ g ∈ sweepSurvivors folder, g.fp = f.fp := by
  classical
  set group := folder.filter (fun g => g.fp == f.fp) with hgroup
  have hfg : f ∈ group := by
    rw [hgroup, List.mem_filter]
    exact ⟨hf, by simp⟩
  have hne : group.toFinset.Nonempty := ⟨f, by simpa using hfg⟩
  obtain ⟨m, hmmem, hmin⟩ :=
    Finset.exists_min_image group.toFinset FileEntry.name hne
  have hmg : m ∈ group := by simpa using hmmem
  have hmfp : m.fp = f.fp := by
    have := (List.mem_filter.mp (hgroup ▸ hmg)).2
    simpa using this
  have hmfolder : m ∈ folder := (List.mem_filter.mp (hgroup ▸ hmg)).1
  refine ⟨m, ?_, hmfp⟩
  rw [sweepSurvivors, List.mem_filter]
  refine ⟨hmfolder, ?_⟩
  unfold keepFile
  rw [List.all_eq_true]
  intro g hg
  by_cases hfp : g.fp = m.fp
  · have hgg : g ∈ group := by
      rw [hgroup, List.mem_filter]
      exact ⟨hg, by simp [hfp, hmfp]⟩
    have hle : m.name ≤ g.name := hmin g (by simpa using hgg)
    simp [hfp, not_lt.mpr hle]
  · simp [hfp]

/-- Witness for `C2_sweep_preserves_fingerprints` on a folder holding two
copies of the same content. -/
theorem C2_sweep_preserves_fingerprints_witness :
    ∃ g ∈ sweepSurvivors [FileEntry.mk "b.jpg" 7, FileEntry.mk "a.jpg" 7],
      g.fp = (FileEntry.mk "b.jpg" 7).fp := by
  exact C2_sweep_preserves_fingerprints _ _ (by simp)

/-- C3: confirmed against the spec-modelled sweep (the backend is not among
the inspected sources).  The sweep is idempotent: run on the survivors of a
completed first run, a second sweep leaves the folder unchanged and reports
`duplicates_removed = 0`. -/
theorem C3_sweep_idempotent (folder : List FileEntry) :
    sweepSurvivors (sweepSurvivors folder) = sweepSurvivors folder
    ∧ duplicatesRemoved (sweepSurvivors folder) = 0 := by
  have hkeep : ∀ f ∈ sweepSurvivors folder,
      keepFile (sweepSurvivors folder) f = true := by
    intro f hf
    have h1 : keepFile folder f = true := by
      have := List.mem_filter.mp (by simpa [sweepSurvivors] using hf)
      exact this.2
    exact keepFile_of_sublist
      (fun g hg => (List.mem_filter.mp (by simpa [sweepSurvivors] using hg)).1) h1
  constructor
  · rw [sweepSurvivors]
    exact List.filter_eq_self.mpr hkeep
  · rw [duplicatesRemoved, List.length_eq_zero, List.filter_eq_nil_iff]
    intro f hf
    simp [hkeep f hf]

/-- C4: confirmed against the spec-modelled Job State Machine (the backend
is not among the inspected sources).  Along every transition the
`processed_users` and `total_users` counters never decrease, and in every
state reachable from a freshly created Job, `processed_users ≤ total_users`
holds; once the Job is terminal, `processed_users = total_users` exactly
when the terminal status is not `canceled` (a mid-run cancellation). -/
theorem C4_user_counters (n : Nat) :
    (∀ j j' : Job, JobStep j j' →
      j.processed_users ≤ j'.processed_users ∧ j.total_users ≤ j'.total_users)
    ∧ ∀ j : Job, JobReachable n j →
        j.processed_users ≤ j.total_users
        ∧ (j.status.isTerminal = true →
            (j.processed_users = j.total_users ↔ j.status ≠ .canceled)) := by
  constructor
  · intro j j' hstep
    cases hstep <;> simp
  · intro j hreach
    induction hreach with
    | refl => simp [initJob, JobStatus.isTerminal]
    | tail hsteps hstep ih =>
      cases hstep with
      | start h => exact ⟨by simpa using ih.1, by simp [JobStatus.isTerminal]⟩
      | userDone h hlt =>
          constructor
          · simp
            omega
          · rcases h with h' | h' <;> simp [h', JobStatus.isTerminal]
      | stopReq h => exact ⟨by simpa using ih.1, by simp [JobStatus.isTerminal]⟩
      | finishCompleted h hall =>
          constructor
          · simp [hall]
          · simp [JobStatus.isTerminal, hall]
      | finishFailed h hall =>
          constructor
          · simp [hall]
          · simp [JobStatus.isTerminal, hall]
      | finishCanceled h hc hlt =>
          constructor
          · simp
            omega
          · simp [JobStatus.isTerminal]
            omega

/-- Witness for `C4_user_counters`: a concrete queued → running →
one-user-processed → completed trace. -/
theorem C4_user_counters_witness :
    (Job.mk .completed 1 1 false).processed_users ≤ (Job.mk .completed 1 1 false).total_users
    ∧ ((Job.mk .completed 1 1 false).status.isTerminal = true →
        ((Job.mk .completed 1 1 false).processed_users
            = (Job.mk .completed 1 1 false).total_users
          ↔ (Job.mk .completed 1 1 false).status ≠ .canceled)) := by
  refine (C4_user_counters 1).2 _ ?_
  have s1 : JobStep (initJob 1) (Job.mk .running 1 0 false) :=
    JobStep.start (initJob 1) rfl
  have s2 : JobStep (Job.mk .running 1 0 false) (Job.mk .running 1 1 false) :=
    JobStep.userDone (Job.mk .running 1 0 false) (Or.inl rfl) (by decide)
  have s3 : JobStep (Job.mk .running 1 1 false) (Job.mk .completed 1 1 false) :=
    JobStep.finishCompleted (Job.mk .running 1 1 false) (Or.inl rfl) rfl
  exact Relation.ReflTransGen.tail
    (Relation.ReflTransGen.tail
      (Relation.ReflTransGen.tail Relation.ReflTransGen.refl s1) s2) s3

/-- C7: confirmed against the spec-modelled stop operation and Job State
Machine (the backend is not among the inspected sources).  `stop` on a
missing Job fails with `NotFound`; on a running Job it sets
`cancel_requested` and moves the Job to `stopping`; on an already-terminal
Job it is a no-op reported as `InvalidState`, and no transition at all
leaves a terminal state, so a Job's terminal status is set exactly once. -/
theorem C7_stop_semantics :
    stopJob none = .error .NotFound
    ∧ (∀ j : Job, j.status = .running →
        stopJob (some j) = .ok { j with status := .stopping, cancel_requested := true })
    ∧ (∀ j : Job, j.status.isTerminal = true →
        stopJob (some j) = .error .InvalidState ∧ ∀ j', ¬ JobStep j j') := by
  refine ⟨rfl, ?_, ?_⟩
  · intro j h
    simp [stopJob, h]
  · intro j h
    have hnr : j.status ≠ .running := by
      intro hr
      rw [hr] at h
      simp [JobStatus.isTerminal] at h
    refine ⟨by simp [stopJob, hnr], ?_⟩
    intro j' hstep
    cases hstep with
    | start hq => rw [hq] at h; simp [JobStatus.isTerminal] at h
    | userDone hor hlt =>
        rcases hor with h' | h' <;> (rw [h'] at h; simp [JobStatus.isTerminal] at h)
    | stopReq hr => exact hnr hr
    | finishCompleted hor hall =>
        rcases hor with h' | h' <;> (rw [h'] at h; simp [JobStatus.isTerminal] at h)
    | finishFailed hor hall =>
        rcases hor with h' | h' <;> (rw [h'] at h; simp [JobStatus.isTerminal] at h)
    | finishCanceled hor hc hlt =>
        rcases hor with h' | h' <;> (rw [h'] at h; simp [JobStatus.isTerminal] at h)

/-- Witness for `C7_stop_semantics` at concrete running and terminal Jobs. -/
theorem C7_stop_semantics_witness :
    stopJob (some (Job.mk .running 2 0 false)) = .ok (Job.mk .stopping 2 0 true)
    ∧ stopJob (some (Job.mk .completed 2 2 false)) = .error .InvalidState
    ∧ ¬ JobStep (Job.mk .completed 2 2 false) (Job.mk .running 2 2 false) := by
  refine ⟨?_, ?_, ?_⟩
  · exact C7_stop_semantics.2.1 (Job.mk .running 2 0 false) rfl
  · exact (C7_stop_semantics.2.2 (Job.mk .completed 2 2 false) rfl).1
  · exact (C7_stop_semantics.2.2 (Job.mk .completed 2 2 false) rfl).2 _

/-- A progress event is not terminal. -/
theorem isTerminal_false_of_isProgress {e : DlEvent} (h : e.isProgress = true) :
    e.isTerminal = false := by
  cases e <;> simp_all [DlEvent.isProgress, DlEvent.isTerminal]

/-- Every download trace from the idle state has the shape dictated by the
state it reaches. -/
theorem traceShape_of_dlTrace {s₀ : DlState} {tr : List DlEvent} {s : DlState}
    (h : DlTrace s₀ tr s) (h₀ : s₀ = .idle) : traceShape s tr := by
  induction h with
  | nil => subst h₀; simp [traceShape]
  | snoc htr hstep ih =>
    have ihs := ih
    cases hstep with
    | start =>
      simp only [traceShape] at ihs
      subst ihs
      exact ⟨[], by simp, by simp⟩
    | progress b b' t hb =>
      obtain ⟨mid, htr2, hmid⟩ := ihs
      refine ⟨mid ++ [.progress b' t], by simp [htr2], ?_⟩
      intro e he
      rcases List.mem_append.mp he with hm | hm
      · exact hmid e hm
      · simp only [List.mem_singleton] at hm
        subst hm
        rfl
    | complete b =>
      obtain ⟨mid, htr2, hmid⟩ := ihs
      exact ⟨mid, .completed b, by simp [htr2], hmid, rfl⟩
    | fail b e =>
      obtain ⟨mid, htr2, hmid⟩ := ihs
      exact ⟨mid, .failed e, by simp [htr2], hmid, rfl⟩

/-- Nothing follows the last element of a list whose other elements are all
non-terminal: any decomposition around a terminal event ends the list. -/
theorem after_terminal_nil {t : DlEvent} :
    ∀ (pre l : List DlEvent) (e : DlEvent) (po : List DlEvent),
      (∀ x ∈ l, x.isTerminal = false) →
      l ++ [t] = pre ++ e :: po → e.isTerminal = true → po = [] := by
  intro pre
  induction pre with
  | nil =>
    intro l e po hl heq hterm
    cases l with
    | nil =>
      simp only [List.nil_append] at heq
      injection heq with h1 h2
      exact h2.symm
    | cons a l' =>
      simp only [List.cons_append, List.nil_append] at heq
      injection heq with h1 h2
      have hfa := hl a (List.mem_cons_self a l')
      rw [h1, hterm] at hfa
      cases hfa
  | cons x pre' ih =>
    intro l e po hl heq hterm
    cases l with
    | nil =>
      simp only [List.nil_append, List.cons_append] at heq
      injection heq with h1 h2
      exact absurd h2.symm (by simp)
    | cons a l' =>
      simp only [List.cons_append] at heq
      injection heq with h1 h2
      exact ih l' e po (fun y hy => hl y (List.mem_cons_of_mem a hy)) h2 hterm

/-- C5: confirmed against the spec-modelled download lifecycle (the backend
is not among the inspected sources).  Any event sequence a download can
emit is a prefix of `started, progress*, (completed|failed)`: a non-empty
sequence starts with `started` and emits it only once, at most one terminal
event occurs, nothing at all (in particular no progress event) follows a
terminal event, and a download that reached its final state emitted exactly
one terminal event. -/
theorem C5_download_event_pattern (tr : List DlEvent) (s : DlState)
    (h : DlTrace .idle tr s) :
    (tr = [] ∨ ∃ rest, tr = DlEvent.started :: rest ∧ DlEvent.started ∉ rest)
    ∧ tr.countP (fun e => e.isTerminal) ≤ 1
    ∧ (∀ pre e po, tr = pre ++ e :: po → e.isTerminal = true → po = [])
    ∧ (s = .done → tr.countP (fun e => e.isTerminal) = 1) := by
  have hshape := traceShape_of_dlTrace h rfl
  cases s with
  | idle =>
    rw [traceShape] at hshape
    subst hshape
    refine ⟨Or.inl rfl, by simp, ?_, by intro hcon; cases hcon⟩
    intro pre e po heq _
    exact absurd heq.symm (by simp)
  | active b =>
    obtain ⟨mid, htr, hmid⟩ := hshape
    have hnt : ∀ e ∈ tr, e.isTerminal = false := by
      intro e he
      rw [htr] at he
      rcases List.mem_cons.mp he with rfl | hm
      · rfl
      · exact isTerminal_false_of_isProgress (hmid e hm)
    refine ⟨Or.inr ⟨mid, htr, ?_⟩, ?_, ?_, by intro hcon; cases hcon⟩
    · intro hmem
      have := hmid _ hmem
      simp [DlEvent.isProgress] at this
    · have : tr.countP (fun e => e.isTerminal) = 0 :=
        List.countP_eq_zero.mpr (by intro e he; simp [hnt e he])
      omega
    · intro pre e po heq hterm
      have hmem : e ∈ tr := by
        rw [heq]
        exact List.mem_append_right pre (List.mem_cons_self e po)
      rw [hnt e hmem] at hterm
      cases hterm
  | done =>
    obtain ⟨mid, t, htr, hmid, hterm_t⟩ := hshape
    have htr' : tr = (DlEvent.started :: mid) ++ [t] := by simp [htr]
    have hnt : ∀ x ∈ DlEvent.started :: mid, x.isTerminal = false := by
      intro x hx
      rcases List.mem_cons.mp hx with rfl | hm
      · rfl
      · exact isTerminal_false_of_isProgress (hmid x hm)
    have hcount : tr.countP (fun e => e.isTerminal) = 1 := by
      rw [htr', List.countP_append]
      have h0 : (DlEvent.started :: mid).countP (fun e => e.isTerminal) = 0 :=
        List.countP_eq_zero.mpr (by intro x hx; simp [hnt x hx])
      simp [h0, hterm_t]
    refine ⟨Or.inr ⟨mid ++ [t], htr, ?_⟩, le_of_eq hcount, ?_, fun _ => hcount⟩
    · intro hmem
      rcases List.mem_append.mp hmem with hm | hm
      · have := hmid _ hm
        simp [DlEvent.isProgress] at this
      · simp only [List.mem_singleton] at hm
        rw [← hm] at hterm_t
        cases hterm_t
    · intro pre e po heq hterm
      exact after_terminal_nil pre (DlEvent.started :: mid) e po hnt
        (by rw [← htr']; exact heq) hterm

/-- Witness for `C5_download_event_pattern` on a concrete
started → progress → completed trace. -/
theorem C5_download_event_pattern_witness :
    ([DlEvent.started, DlEvent.progress 5 10, DlEvent.completed 5].countP
        (fun e => e.isTerminal)) = 1 := by
  have t1 : DlTrace .idle ([] ++ [DlEvent.started]) (.active 0) :=
    DlTrace.snoc (DlTrace.nil _) DlStep.start
  have t2 : DlTrace .idle ([DlEvent.started] ++ [DlEvent.progress 5 10]) (.active 5) :=
    DlTrace.snoc t1 (DlStep.progress 0 5 10 (by decide))
  have t3 : DlTrace .idle
      ([DlEvent.started, DlEvent.progress 5 10] ++ [DlEvent.completed 5]) .done :=
    DlTrace.snoc t2 (DlStep.complete 5)
  exact (C5_download_event_pattern _ _ t3).2.2.2 rfl
